import Mathlib

/-!
Shallow embedding of the `loki-logs` CLI (src/main.rs), a client that fetches
pod logs from a Loki data source through a Grafana query proxy, and theorems
checking the natural-language specification against it.

The embedding covers:
* a model of `serde_json::Value` (`JValue`) together with the accessors the
  program uses (`get` by key, `get` by index, `as_array`, `as_u64`, `as_str`)
  and an executable JSON parser modelling `serde_json::from_str`;
* the request body built by `Loki::get_logs` (the `json!` literal at
  main.rs lines 84-106), as `buildBody`;
* the response-processing tail of `Loki::get_logs` (main.rs lines 116-161):
  parse, raw branch, the chained optional-field navigation, the
  zip/sort-by-timestamp stage (with the `unwrap` panic modelled explicitly),
  and the printed output;
* `get_identity` (main.rs lines 165-187): environment lookups done with
  `expect` (panic on absence), the two credential file reads, and the
  concatenated PEM blob handed to `Identity::from_pem`.

Network transport, TLS, and actual process I/O are outside the embedding: the
response body text is an input of the model, and "printed output" is the list
of `println!` lines.
-/

/-- Model of `serde_json::Value`.  Integral JSON numbers that serde stores as
`u64` or `i64` are `num n`; every other number (a fraction, an exponent form,
or an integer outside both ranges) is stored by serde as `f64` and modelled
here as `fnum` carrying its lexeme, opaque except that `as_u64` fails on it. -/
inductive JValue where
  | null : JValue
  | bool (b : Bool) : JValue
  | num (n : Int) : JValue
  | fnum (lexeme : String) : JValue
  | str (s : String) : JValue
  | arr (elems : List JValue) : JValue
  | obj (fields : List (String × JValue)) : JValue
deriving Repr, Inhabited

/-- `Value::get` with a string key: field lookup on objects, `None` otherwise. -/
def JValue.getK : JValue → String → Option JValue
  | .obj fields, key => fields.lookup key
  | _, _ => none

/-- `Value::get` with a `usize` index: element lookup on arrays, `None` otherwise. -/
def JValue.getI : JValue → Nat → Option JValue
  | .arr elems, i => elems[i]?
  | _, _ => none

/-- `Value::as_array`. -/
def JValue.as_array : JValue → Option (List JValue)
  | .arr elems => some elems
  | _ => none

/-- `Value::as_str`. -/
def JValue.as_str : JValue → Option String
  | .str s => some s
  | _ => none

/-- `Value::as_u64`: succeeds exactly on integral numbers in `[0, 2^64)`
(serde's `f64`-backed numbers always yield `None`). -/
def JValue.as_u64 : JValue → Option Nat
  | .num n => if 0 ≤ n ∧ n < 2 ^ 64 then some n.toNat else none
  | _ => none

/-! ### A JSON parser modelling `serde_json::from_str::<Value>` -/

/-- Skip JSON whitespace. -/
def skipWs : List Char → List Char
  | c :: cs =>
    if c = ' ' ∨ c = '\t' ∨ c = '\n' ∨ c = '\r' then skipWs cs else c :: cs
  | [] => []

/-- Value of one hex digit. -/
def hexVal (c : Char) : Option Nat :=
  if '0' ≤ c ∧ c ≤ '9' then some (c.toNat - '0'.toNat)
  else if 'a' ≤ c ∧ c ≤ 'f' then some (c.toNat - 'a'.toNat + 10)
  else if 'A' ≤ c ∧ c ≤ 'F' then some (c.toNat - 'A'.toNat + 10)
  else none

/-- Read four hex digits. -/
def parseHex4 : List Char → Option (Nat × List Char)
  | c1 :: c2 :: c3 :: c4 :: rest => do
    let h1 ← hexVal c1
    let h2 ← hexVal c2
    let h3 ← hexVal c3
    let h4 ← hexVal c4
    pure (((h1 * 16 + h2) * 16 + h3) * 16 + h4, rest)
  | _ => none

/-- Parse the body of a JSON string literal (after the opening quote), up to
and including the closing quote.  Handles the escape sequences serde accepts,
including `\uXXXX` with surrogate pairs; rejects lone surrogates and raw
control characters, as serde does. -/
def parseStringBody : Nat → List Char → Option (List Char × List Char)
  | 0, _ => none
  | _ + 1, [] => none
  | fuel + 1, c :: cs =>
    if c = '"' then some ([], cs)
    else if c = '\\' then
      match cs with
      | [] => none
      | e :: cs' =>
        if e = 'u' then
          match parseHex4 cs' with
          | none => none
          | some (cp, rest) =>
            if 0xD800 ≤ cp ∧ cp ≤ 0xDBFF then
              match rest with
              | '\\' :: 'u' :: rest' =>
                match parseHex4 rest' with
                | none => none
                | some (lo, rest'') =>
                  if 0xDC00 ≤ lo ∧ lo ≤ 0xDFFF then
                    let combined := 0x10000 + (cp - 0xD800) * 0x400 + (lo - 0xDC00)
                    (parseStringBody fuel rest'').map
                      (fun r => (Char.ofNat combined :: r.1, r.2))
                  else none
              | _ => none
            else if 0xDC00 ≤ cp ∧ cp ≤ 0xDFFF then none
            else (parseStringBody fuel rest).map (fun r => (Char.ofNat cp :: r.1, r.2))
        else
          match
            (if e = '"' then some '"'
             else if e = '\\' then some '\\'
             else if e = '/' then some '/'
             else if e = 'b' then some (Char.ofNat 8)
             else if e = 'f' then some (Char.ofNat 12)
             else if e = 'n' then some '\n'
             else if e = 'r' then some '\r'
             else if e = 't' then some '\t'
             else none) with
          | none => none
          | some d => (parseStringBody fuel cs').map (fun r => (d :: r.1, r.2))
    else if c.toNat < 0x20 then none
    else (parseStringBody fuel cs).map (fun r => (c :: r.1, r.2))

/-- Take a maximal run of decimal digits. -/
def takeDigits : List Char → List Char × List Char
  | c :: cs =>
    if '0' ≤ c ∧ c ≤ '9' then
      let r := takeDigits cs
      (c :: r.1, r.2)
    else ([], c :: cs)
  | [] => ([], [])

/-- Numeric value of a digit run. -/
def digitsToNat (ds : List Char) : Nat :=
  ds.foldl (fun acc c => acc * 10 + (c.toNat - '0'.toNat)) 0

/-- Parse a JSON number starting at `cs` (which must start with `-` or a
digit).  Integral literals that fit serde's `u64`/`i64` become `JValue.num`;
anything with a fraction or exponent, and out-of-range integers, become the
opaque `JValue.fnum` (serde stores those as `f64`). -/
def parseNumber (cs : List Char) : Option (JValue × List Char) :=
  let (neg, cs1) :=
    match cs with
    | '-' :: rest => (true, rest)
    | _ => (false, cs)
  match takeDigits cs1 with
  | ([], _) => none
  | (d :: ds, cs2) =>
    if d = '0' ∧ ds ≠ [] then none
    else
      let intDigits := d :: ds
      let (fracDigits, cs3, hasFrac) :=
        match cs2 with
        | '.' :: rest =>
          match takeDigits rest with
          | ([], _) => ([], cs2, false)
          | (fs, rest') => (fs, rest', true)
        | _ => ([], cs2, false)
      match cs3 with
      | e :: srest =>
        if e = 'e' ∨ e = 'E' then
          let erest :=
            match srest with
            | '+' :: r => r
            | '-' :: r => r
            | r => r
          match takeDigits erest with
          | ([], _) => none
          | (_, cs4) =>
            let lex := String.mk (cs.take (cs.length - cs4.length))
            some (JValue.fnum lex, cs4)
        else
          finishInt neg intDigits fracDigits hasFrac cs cs3
      | [] => finishInt neg intDigits fracDigits hasFrac cs cs3
where
  /-- Classify a number with no exponent part. -/
  finishInt (neg : Bool) (intDigits _fracDigits : List Char) (hasFrac : Bool)
      (cs after : List Char) : Option (JValue × List Char) :=
    let lex := String.mk (cs.take (cs.length - after.length))
    if hasFrac then some (JValue.fnum lex, after)
    else
      let m : Nat := digitsToNat intDigits
      let v : Int := if neg then -(m : Int) else (m : Int)
      if (0 ≤ v ∧ v < 2 ^ 64) ∨ (-(2 ^ 63) ≤ v ∧ v < 0) then some (JValue.num v, after)
      else some (JValue.fnum lex, after)

mutual

/-- Parse one JSON value.  `fuel` bounds recursion depth; `fromStr` supplies
enough for any input. -/
def parseValue : Nat → List Char → Option (JValue × List Char)
  | 0, _ => none
  | _ + 1, [] => none
  | fuel + 1, c :: cs =>
    if c = 'n' then
      match cs with
      | 'u' :: 'l' :: 'l' :: rest => some (JValue.null, rest)
      | _ => none
    else if c = 't' then
      match cs with
      | 'r' :: 'u' :: 'e' :: rest => some (JValue.bool true, rest)
      | _ => none
    else if c = 'f' then
      match cs with
      | 'a' :: 'l' :: 's' :: 'e' :: rest => some (JValue.bool false, rest)
      | _ => none
    else if c = '"' then
      (parseStringBody (cs.length + 1) cs).map (fun r => (JValue.str (String.mk r.1), r.2))
    else if c = '\x5b' then
      let cs' := skipWs cs
      match cs' with
      | ']' :: rest => some (JValue.arr [], rest)
      | _ => (parseElems fuel cs').map (fun r => (JValue.arr r.1, r.2))
    else if c = '\x7b' then
      let cs' := skipWs cs
      match cs' with
      | '\x7d' :: rest => some (JValue.obj [], rest)
      | _ => (parseFields fuel cs').map (fun r => (JValue.obj r.1, r.2))
    else if c = '-' ∨ ('0' ≤ c ∧ c ≤ '9') then
      parseNumber (c :: cs)
    else none

/-- Parse the elements of a non-empty JSON array, up to and including `]`. -/
def parseElems : Nat → List Char → Option (List JValue × List Char)
  | 0, _ => none
  | fuel + 1, cs => do
    let (v, rest) ← parseValue fuel cs
    match skipWs rest with
    | ',' :: rest' => (parseElems fuel (skipWs rest')).map (fun r => (v :: r.1, r.2))
    | ']' :: rest' => some ([v], rest')
    | _ => none

/-- Parse the fields of a non-empty JSON object, up to and including the
closing brace. -/
def parseFields : Nat → List Char → Option (List (String × JValue) × List Char)
  | 0, _ => none
  | fuel + 1, cs =>
    match cs with
    | '"' :: cs1 => do
      let (key, rest) ← parseStringBody (cs1.length + 1) cs1
      match skipWs rest with
      | ':' :: rest' => do
        let (v, rest'') ← parseValue fuel (skipWs rest')
        match skipWs rest'' with
        | ',' :: rest3 =>
          (parseFields fuel (skipWs rest3)).map (fun r => ((String.mk key, v) :: r.1, r.2))
        | '\x7d' :: rest3 => some ([(String.mk key, v)], rest3)
        | _ => none
      | _ => none
    | _ => none

end

/-- Model of `serde_json::from_str::<Value>`: parse one JSON document,
requiring only whitespace after it. -/
def from_str (s : String) : Option JValue :=
  let cs := skipWs s.data
  match parseValue (2 * cs.length + 2) cs with
  | some (v, rest) => if skipWs rest = [] then some v else none
  | none => none

/-! ### The request body built by `Loki::get_logs` (main.rs lines 84-106) -/

/-- The credential path template constant (main.rs line 9). -/
def PATH_TEMPLATE : String :=
  ".tsh/keys/teleport.parity.io/\x7buser\x7d@parity.io-app/teleport.parity.io"

/-- The fixed Loki data-source identifier (main.rs line 10). -/
def PARITY_ZOMBIENET_UID : String := "PCF9DACBDF30E12B3"

/-- The request body of `Loki::get_logs`, mirroring the `json!` literal at
main.rs lines 84-106 field by field.  The `expr` field is the `format!` at
line 88, interpolating `namespace` and `pod` verbatim. -/
def buildBody (ns pod fromT toT : String) (lines : Nat) : JValue :=
  .obj
    [("queries",
      .arr
        [.obj
          [("refId", .str "A"),
           ("expr", .str ("\x7bnamespace=\"" ++ ns ++ "\", pod=\"" ++ pod ++ "\"\x7d")),
           ("queryType", .str "range"),
           ("datasource", .obj [("type", .str "loki"), ("uid", .str PARITY_ZOMBIENET_UID)]),
           ("direction", .str "forward"),
           ("maxLines", .num (Int.ofNat lines)),
           ("format", .str "log"),
           ("step", .str ""),
           ("datasourceId", .num 24),
           ("intervalMs", .num 500),
           ("maxDataPoints", .num 1272)]]),
     ("from", .str fromT),
     ("to", .str toT)]

/-! ### The response-processing tail of `Loki::get_logs` (main.rs 116-161) -/

/-- The chained optional-field navigation of main.rs lines 123-140:
`results → "A" → frames → [0] → data → values`, then `values[1].as_array()`
and `values[2].as_array()`. -/
def lookupValues (j : JValue) : Option (List JValue × List JValue) :=
  ((((((j.getK "results").bind (fun r => r.getK "A")).bind
        (fun a => a.getK "frames")).bind
        (fun frames => frames.getI 0)).bind
        (fun frame => frame.getK "data")).bind
        (fun data => data.getK "values")).bind
    (fun values =>
      ((values.getI 1).bind JValue.as_array).bind
        (fun v1 =>
          ((values.getI 2).bind JValue.as_array).map (fun v2 => (v1, v2))))

/-- The sort key order used at main.rs line 146: compare zipped
(timestamp, line) pairs by the already-extracted `u64` timestamp. -/
def keyLe (a b : Nat × JValue) : Prop := a.1 ≤ b.1

instance : DecidableRel keyLe := fun a b => inferInstanceAs (Decidable (a.1 ≤ b.1))

instance : IsTotal (Nat × JValue) keyLe := ⟨fun a b => Nat.le_total a.1 b.1⟩

instance : IsTrans (Nat × JValue) keyLe := ⟨fun _ _ _ => Nat.le_trans⟩

/-- The stable sort of `itertools::sorted_by_key` / `slice::sort_by_key`
(main.rs line 146), modelled by insertion sort, which is stable in the same
sense: elements with equal keys keep their relative order. -/
def sortedPairs (keyed : List (Nat × JValue)) : List (Nat × JValue) :=
  List.insertionSort keyLe keyed

/-- Evaluate `tstamp.as_u64().unwrap()` (main.rs line 146) on every zipped
pair: `none` models the `unwrap` panic on a timestamp that is not a `u64`. -/
def extractKeys : List (JValue × JValue) → Option (List (Nat × JValue))
  | [] => some []
  | (t, l) :: rest =>
    match t.as_u64 with
    | none => none
    | some n => (extractKeys rest).map (fun ks => (n, l) :: ks)

/-- The zip-and-sort stage at main.rs lines 142-150:
`timestamps.iter().zip(lines.iter()).sorted_by_key(|(tstamp, _)| tstamp.as_u64().unwrap()).map(|(_, lines)| lines)`.
`some out` is the sorted list of line values; `none` models a panic of the
`unwrap` inside the sort-key closure.  `sort_by_key` returns without calling
the key closure at all when the collected vector has fewer than two elements,
so in that case no `unwrap` can fire and the pairs pass through unsorted. -/
def zipSortStage (timestamps lines : List JValue) : Option (List JValue) :=
  let pairs := timestamps.zip lines
  if pairs.length ≤ 1 then some (pairs.map Prod.snd)
  else
    match extractKeys pairs with
    | some keyed => some ((sortedPairs keyed).map Prod.snd)
    | none => none

/-- Outcome of the response-processing tail of `Loki::get_logs`:
`success printed` is `Ok(())` together with the lines written by `println!`
in order; `parseFailed` is the `Err` propagated by the `?` on
`serde_json::from_str` at main.rs line 117; `panicked` is a process abort
from the `unwrap` at line 146. -/
inductive GetLogsResult where
  | success (printed : List String) : GetLogsResult
  | parseFailed : GetLogsResult
  | panicked : GetLogsResult
deriving Repr, DecidableEq

/-- Main.rs lines 116-161: parse the response text (the `?` at line 117 makes
an unparseable body an error even in raw mode), print the raw text and return
if `raw`, otherwise navigate to the two arrays, zip/sort, and print each
paired line value that `as_str` accepts (line 153 silently skips the rest);
if the navigation fails, print the fixed "no log lines" message. -/
def processResponse (raw : Bool) (text : String) : GetLogsResult :=
  match from_str text with
  | none => .parseFailed
  | some jsonResponse =>
    if raw then .success [text]
    else
      match lookupValues jsonResponse with
      | some (timestamps, lines) =>
        match zipSortStage timestamps lines with
        | some logLines => .success (logLines.filterMap JValue.as_str)
        | none => .panicked
      | none => .success ["No log lines found in the response."]

/-- `Loki::get_logs` as a whole, with the network abstracted away: the first
component is the request body it constructs and sends, the second the outcome
of processing the response body `responseText` that the transport returned. -/
def get_logs (ns pod fromT toT : String) (lines : Nat) (raw : Bool)
    (responseText : String) : JValue × GetLogsResult :=
  (buildBody ns pod fromT toT lines, processResponse raw responseText)

/-! ### `get_identity` (main.rs lines 165-187) -/

/-- Outcome of `get_identity`: `ok blob` means the function reached line 184
and `blob` is the concatenated PEM byte blob handed to `Identity::from_pem`;
`err` is an `Err` return to the caller (the `?` on either `fs::read`);
`panicked msg` is a process abort from `expect` at lines 166-167. -/
inductive IdentityResult where
  | ok (pemBlob : List Nat) : IdentityResult
  | err (msg : String) : IdentityResult
  | panicked (msg : String) : IdentityResult
deriving Repr, DecidableEq

/-- Does `get_identity` return an error value to its caller (as opposed to
succeeding or aborting the process)? -/
def IdentityResult.isReturnedError : IdentityResult → Bool
  | .err _ => true
  | _ => false

/-- Model of Rust's `str::replace`: replace every (non-overlapping,
left-to-right) occurrence of `pat` in `s` by `rep`. -/
def strReplace (s pat rep : String) : String :=
  String.mk (go (s.data.length + 1) s.data pat.data rep.data)
where
  /-- Fuel-bounded worker; the fuel supplied above always suffices for a
  non-empty pattern. -/
  go : Nat → List Char → List Char → List Char → List Char
    | 0, cs, _, _ => cs
    | _ + 1, [], _, _ => []
    | fuel + 1, c :: cs, pat, rep =>
      if pat ≠ [] ∧ pat.isPrefixOf (c :: cs) then
        rep ++ go fuel ((c :: cs).drop pat.length) pat rep
      else c :: go fuel cs pat rep

/-- The certificate path built at main.rs lines 169-173. -/
def cert_path (home user : String) : String :=
  home ++ "/" ++ strReplace PATH_TEMPLATE "\x7buser\x7d" user ++ "/grafana.crt"

/-- The key path built at main.rs lines 174-178. -/
def key_path (home user : String) : String :=
  home ++ "/" ++ strReplace PATH_TEMPLATE "\x7buser\x7d" user ++ "/grafana.key"

/-- `get_identity` (main.rs lines 165-187).  `homeVar`/`userVar` model
`env::var("HOME")` / `env::var("USER")` (`none` = unset, read with `expect`,
which aborts); `readFile` models `fs::read` (`none` = I/O error, propagated
with `?`).  On success the certificate bytes and key bytes are concatenated
(`pem.append(&mut key_pem)`, line 182) into the blob for `Identity::from_pem`. -/
def get_identity (homeVar userVar : Option String)
    (readFile : String → Option (List Nat)) : IdentityResult :=
  match homeVar with
  | none => .panicked "HOME environment variable not set"
  | some home_dir =>
    match userVar with
    | none => .panicked "USER environment variable not set"
    | some username =>
      match readFile (cert_path home_dir username) with
      | none => .err "failed to read certificate file"
      | some pem =>
        match readFile (key_path home_dir username) with
        | none => .err "failed to read key file"
        | some key_pem => .ok (pem ++ key_pem)

/-- Look up a field of the single query object inside a request body:
`body["queries"][0][field]`. -/
def queryField (body : JValue) (field : String) : Option JValue :=
  ((body.getK "queries").bind (fun qs => qs.getI 0)).bind (fun q => q.getK field)

/-! ### Helper lemmas about the sort stage -/

/-- Filtering by an exact key commutes with `orderedInsert`: the inserted pair
lands before every pair with the same key already in the list. -/
theorem filter_orderedInsert_key (k : Nat) (a : Nat × JValue)
    (l : List (Nat × JValue)) :
    (List.orderedInsert keyLe a l).filter (fun p => p.1 == k) =
      if a.1 == k then a :: l.filter (fun p => p.1 == k)
      else l.filter (fun p => p.1 == k) := by
  induction l with
  | nil =>
    by_cases h : a.1 == k <;> simp [List.orderedInsert, List.filter_cons, h]
  | cons b l ih =>
    by_cases hab : keyLe a b
    · rw [List.orderedInsert_of_le _ _ hab]
      by_cases ha : a.1 == k <;> simp [List.filter_cons, ha]
    · rw [show List.orderedInsert keyLe a (b :: l) = b :: List.orderedInsert keyLe a l by
        simp [List.orderedInsert, hab]]
      by_cases ha : a.1 == k <;> by_cases hb : b.1 == k <;>
        simp only [List.filter_cons, ha, hb, if_pos, if_neg, ih, Bool.false_eq_true,
          ite_false, ite_true]
      exact absurd (Nat.le_of_eq ((eq_of_beq ha).trans (eq_of_beq hb).symm)) hab

/-- Filtering by an exact key is invariant under the stable sort: pairs with
equal timestamps keep their relative order. -/
theorem filter_sortedPairs_key (k : Nat) (l : List (Nat × JValue)) :
    (sortedPairs l).filter (fun p => p.1 == k) = l.filter (fun p => p.1 == k) := by
  induction l with
  | nil => rfl
  | cons a l ih =>
    show (List.orderedInsert keyLe a (List.insertionSort keyLe l)).filter _ = _
    rw [filter_orderedInsert_key]
    by_cases ha : a.1 == k <;> simp [List.filter_cons, ha, show
      (List.insertionSort keyLe l).filter (fun p => p.1 == k) =
        l.filter (fun p => p.1 == k) from ih]

/-- `extractKeys` succeeds precisely when every zipped timestamp is a valid
`u64`, and then preserves length. -/
theorem extractKeys_of_all_u64 (l : List (JValue × JValue))
    (h : ∀ p ∈ l, p.1.as_u64.isSome = true) :
    ∃ ks, extractKeys l = some ks ∧ ks.length = l.length := by
  induction l with
  | nil => exact ⟨[], rfl, rfl⟩
  | cons p rest ih =>
    obtain ⟨n, hn⟩ := Option.isSome_iff_exists.mp (h p (List.mem_cons_self p rest))
    obtain ⟨ks, hks, hlen⟩ := ih (fun q hq => h q (List.mem_cons_of_mem p hq))
    refine ⟨(n, p.2) :: ks, ?_, by simp [hlen]⟩
    show extractKeys (p :: rest) = _
    rw [show extractKeys (p :: rest) =
      (match p.1.as_u64 with
       | none => none
       | some n => (extractKeys rest).map (fun ks => (n, p.2) :: ks)) from rfl]
    rw [hn, hks]
    rfl

/-- `extractKeys` preserves length when it succeeds. -/
theorem extractKeys_length (l : List (JValue × JValue)) (ks : List (Nat × JValue))
    (h : extractKeys l = some ks) : ks.length = l.length := by
  induction l generalizing ks with
  | nil =>
    simp only [extractKeys] at h
    cases h
    rfl
  | cons p rest ih =>
    rw [show extractKeys (p :: rest) =
      (match p.1.as_u64 with
       | none => none
       | some n => (extractKeys rest).map (fun ks => (n, p.2) :: ks)) from rfl] at h
    cases hu : p.1.as_u64 with
    | none => rw [hu] at h; cases h
    | some n =>
      rw [hu] at h
      cases hr : extractKeys rest with
      | none => rw [hr] at h; cases h
      | some ks' =>
        rw [hr] at h
        cases h
        simp [ih ks' hr]

/-- The pairs-of-length-at-most-one case: bypassing the sort (as `sort_by_key`
does below two elements) gives the same line values as sorting would. -/
theorem map_snd_short_eq_sortedPairs (l : List (JValue × JValue))
    (ks : List (Nat × JValue)) (hk : extractKeys l = some ks)
    (hlen : l.length ≤ 1) :
    l.map Prod.snd = (sortedPairs ks).map Prod.snd := by
  match l with
  | [] =>
    simp only [extractKeys] at hk
    cases hk
    rfl
  | [p] =>
    rw [show extractKeys [p] =
      (match p.1.as_u64 with
       | none => none
       | some n => (extractKeys []).map (fun ks => (n, p.2) :: ks)) from rfl] at hk
    cases hu : p.1.as_u64 with
    | none => rw [hu] at hk; cases hk
    | some n => rw [hu] at hk; cases hk; rfl
  | p :: q :: rest => simp at hlen

/-- When every zipped timestamp extracts, the whole zip/sort stage returns the
stably sorted pairs' line values. -/
theorem zipSortStage_eq_of_extractKeys (v1 v2 : List JValue)
    (keyed : List (Nat × JValue)) (h : extractKeys (v1.zip v2) = some keyed) :
    zipSortStage v1 v2 = some ((sortedPairs keyed).map Prod.snd) := by
  unfold zipSortStage
  by_cases hlen : (v1.zip v2).length ≤ 1
  · simp only [hlen, ite_true]
    exact congrArg some (map_snd_short_eq_sortedPairs _ _ h hlen)
  · simp only [hlen, ite_false, h]

/-! ### Claim theorems -/

set_option maxRecDepth 16000 in
/-- C1: the code does not report a `ParseError` on a timestamp that is not a
`u64` — the `unwrap` at main.rs line 146 aborts the process.  On a response
whose `values[1]` contains `-5` (not representable as `u64`) alongside a
second pair, `get_logs` panics instead of returning an error. -/
theorem get_logs_panics_on_bad_timestamp :
    (get_logs "staging" "node-1" "now-24h" "now" 1000 false
        "\x7b\"results\":\x7b\"A\":\x7b\"frames\":[\x7b\"data\":\x7b\"values\":[[],[-5,10],[\"a\",\"b\"]]\x7d\x7d]\x7d\x7d\x7d").2
      = GetLogsResult.panicked := rfl

/-- C2 counterexample: the claim that raw mode performs no parsing and
succeeds on any body is false — `serde_json::from_str` runs at main.rs
line 117 before the `raw` branch, so a non-JSON body makes `get_logs` return
the parse error instead of printing the body. -/
theorem get_logs_raw_errors_on_nonjson_body :
    (get_logs "staging" "node-1" "now-24h" "now" 1000 true "not json").2
        = GetLogsResult.parseFailed ∧
      GetLogsResult.parseFailed ≠ GetLogsResult.success ["not json"] :=
  ⟨rfl, by decide⟩

/-- C2 amended: when `raw` is true and the body is valid JSON, `get_logs`
prints the body text exactly, byte for byte, and succeeds without touching
the parsed structure. -/
theorem get_logs_raw_prints_body_verbatim_on_json
    (ns pod fromT toT : String) (lines : Nat) (text : String) {j : JValue}
    (h : from_str text = some j) :
    (get_logs ns pod fromT toT lines true text).2 = GetLogsResult.success [text] := by
  show processResponse true text = _
  unfold processResponse
  rw [h]
  rfl

set_option maxRecDepth 8000 in
/-- C2 amended, witness at a concrete JSON body. -/
theorem get_logs_raw_prints_body_verbatim_on_json_witness :
    (get_logs "staging" "node-1" "now-24h" "now" 1000 true "\x7b\x7d").2
      = GetLogsResult.success ["\x7b\x7d"] :=
  get_logs_raw_prints_body_verbatim_on_json "staging" "node-1" "now-24h" "now"
    1000 "\x7b\x7d" rfl

set_option maxRecDepth 16000 in
/-- C3 counterexample: on the spec's end-to-end example the printed output is
not `a`, `b`, `c`. -/
theorem end_to_end_example_output_is_not_abc :
    (get_logs "staging" "node-1" "now-24h" "now" 1000 false
        "\x7b\"results\":\x7b\"A\":\x7b\"frames\":[\x7b\"data\":\x7b\"values\":[[],[200,100,300],[\"c\",\"a\",\"b\"]]\x7d\x7d]\x7d\x7d\x7d").2
      ≠ GetLogsResult.success ["a", "b", "c"] := by decide

set_option maxRecDepth 16000 in
/-- C3 amended: sorting the pairs (200,"c"), (100,"a"), (300,"b") ascending
by timestamp gives 100, 200, 300, so the printed output is `a`, then `c`,
then `b`. -/
theorem end_to_end_example_output_acb :
    (get_logs "staging" "node-1" "now-24h" "now" 1000 false
        "\x7b\"results\":\x7b\"A\":\x7b\"frames\":[\x7b\"data\":\x7b\"values\":[[],[200,100,300],[\"c\",\"a\",\"b\"]]\x7d\x7d]\x7d\x7d\x7d").2
      = GetLogsResult.success ["a", "c", "b"] := rfl

/-- C4: when every zipped (timestamp, line) pair has a valid `u64` timestamp
(`extractKeys` succeeds), the sort stage emits the stably sorted pairs' line
values; the sorted sequence has the same length as the zipped input, is
sorted ascending by timestamp, and is stable: for every timestamp value `k`,
the pairs with that timestamp appear in exactly their original input order
(filtering by `k` commutes with the sort). -/
theorem parser_sorts_stably_by_timestamp (v1 v2 : List JValue)
    {keyed : List (Nat × JValue)} (h : extractKeys (v1.zip v2) = some keyed) :
    zipSortStage v1 v2 = some ((sortedPairs keyed).map Prod.snd) ∧
    (sortedPairs keyed).length = (v1.zip v2).length ∧
    List.Sorted keyLe (sortedPairs keyed) ∧
    ∀ k : Nat, (sortedPairs keyed).filter (fun p => p.1 == k)
      = keyed.filter (fun p => p.1 == k) :=
  ⟨zipSortStage_eq_of_extractKeys v1 v2 keyed h,
   (List.perm_insertionSort keyLe keyed).length_eq.trans
     (extractKeys_length _ _ h),
   List.sorted_insertionSort keyLe keyed,
   fun k => filter_sortedPairs_key k keyed⟩

set_option maxRecDepth 8000 in
/-- C4 witness: timestamps `[5, 5, 3]` with lines `[x, y, z]` sort to
`z, x, y` — ascending, and the two timestamp-5 pairs keep their order. -/
theorem parser_sorts_stably_by_timestamp_witness :
    zipSortStage [JValue.num 5, JValue.num 5, JValue.num 3]
        [JValue.str "x", JValue.str "y", JValue.str "z"]
      = some [JValue.str "z", JValue.str "x", JValue.str "y"] :=
  (parser_sorts_stably_by_timestamp
    [JValue.num 5, JValue.num 5, JValue.num 3]
    [JValue.str "x", JValue.str "y", JValue.str "z"] rfl).1

set_option maxRecDepth 8000 in
/-- C5: whenever the navigation `results → "A" → frames[0] → data → values`
(with arrays at indices 1 and 2) fails on the parsed response, `get_logs`
succeeds and prints exactly the fixed informational line. -/
theorem absent_path_prints_no_log_lines_message
    (ns pod fromT toT : String) (lines : Nat) (text : String) {j : JValue}
    (h1 : from_str text = some j) (h2 : lookupValues j = none) :
    (get_logs ns pod fromT toT lines false text).2
      = GetLogsResult.success ["No log lines found in the response."] := by
  show processResponse false text = _
  unfold processResponse
  rw [h1]
  simp only [h2]
  rfl

set_option maxRecDepth 8000 in
/-- C5 witness: the empty JSON object has no `results` node. -/
theorem absent_path_prints_no_log_lines_message_witness :
    (get_logs "staging" "node-1" "now-24h" "now" 1000 false "\x7b\x7d").2
      = GetLogsResult.success ["No log lines found in the response."] :=
  absent_path_prints_no_log_lines_message "staging" "node-1" "now-24h" "now"
    1000 "\x7b\x7d" rfl rfl

/-- C6: when the timestamp and line arrays differ in length (and each zipped
timestamp is a valid `u64`), the stage neither errors nor panics and produces
exactly `min` of the two lengths pairs — `zip` stops at the shorter array. -/
theorem mismatched_lengths_pair_to_shorter (v1 v2 : List JValue)
    (h : ((v1.zip v2).all fun p => p.1.as_u64.isSome) = true) :
    (zipSortStage v1 v2).map List.length = some (min v1.length v2.length) := by
  obtain ⟨ks, hks, hlen⟩ :=
    extractKeys_of_all_u64 (v1.zip v2) (by simpa [List.all_eq_true] using h)
  rw [zipSortStage_eq_of_extractKeys v1 v2 ks hks]
  exact congrArg some (by
    rw [List.length_map]
    show (List.insertionSort keyLe ks).length = _
    rw [(List.perm_insertionSort keyLe ks).length_eq, hlen, List.length_zip])

set_option maxRecDepth 8000 in
/-- C6 witness: three timestamps against two lines form exactly two pairs. -/
theorem mismatched_lengths_pair_to_shorter_witness :
    (zipSortStage [JValue.num 5, JValue.num 3, JValue.num 1]
        [JValue.str "a", JValue.str "b"]).map List.length = some 2 :=
  mismatched_lengths_pair_to_shorter
    [JValue.num 5, JValue.num 3, JValue.num 1]
    [JValue.str "a", JValue.str "b"] (by decide)

/-- C7: for every LogQuery, the request body `get_logs` constructs carries
`maxLines` equal to the query's line cap, the label-selector `expr` equal to
the fixed template with `namespace` and `pod` substituted verbatim, query
type "range", direction "forward", format "log", the fixed data-source
identifier, and the query's `from`/`to`.  Determinism is inherent:
`buildBody` is a pure function of the query. -/
theorem request_payload_fields_from_query
    (ns pod fromT toT : String) (lines : Nat) (raw : Bool) (text : String) :
    queryField (get_logs ns pod fromT toT lines raw text).1 "maxLines"
        = some (JValue.num (Int.ofNat lines)) ∧
    queryField (get_logs ns pod fromT toT lines raw text).1 "expr"
        = some (JValue.str ("\x7bnamespace=\"" ++ ns ++ "\", pod=\"" ++ pod ++ "\"\x7d")) ∧
    queryField (get_logs ns pod fromT toT lines raw text).1 "queryType"
        = some (JValue.str "range") ∧
    queryField (get_logs ns pod fromT toT lines raw text).1 "direction"
        = some (JValue.str "forward") ∧
    queryField (get_logs ns pod fromT toT lines raw text).1 "format"
        = some (JValue.str "log") ∧
    (queryField (get_logs ns pod fromT toT lines raw text).1 "datasource").bind
        (fun ds => ds.getK "uid") = some (JValue.str PARITY_ZOMBIENET_UID) ∧
    (get_logs ns pod fromT toT lines raw text).1.getK "from"
        = some (JValue.str fromT) ∧
    (get_logs ns pod fromT toT lines raw text).1.getK "to"
        = some (JValue.str toT) :=
  ⟨rfl, rfl, rfl, rfl, rfl, rfl, rfl, rfl⟩

/-- C8: whenever both credential files read successfully, the PEM blob handed
to `Identity::from_pem` is exactly the certificate bytes followed by the key
bytes. -/
theorem identity_blob_is_cert_then_key (home user : String)
    (readFile : String → Option (List Nat)) {c k : List Nat}
    (h1 : readFile (cert_path home user) = some c)
    (h2 : readFile (key_path home user) = some k) :
    get_identity (some home) (some user) readFile = IdentityResult.ok (c ++ k) := by
  have hred : get_identity (some home) (some user) readFile =
      (match readFile (cert_path home user) with
       | none => IdentityResult.err "failed to read certificate file"
       | some pem =>
         match readFile (key_path home user) with
         | none => IdentityResult.err "failed to read key file"
         | some key_pem => IdentityResult.ok (pem ++ key_pem)) := rfl
  rw [hred, h1, h2]

set_option maxRecDepth 8000 in
/-- C8 witness: distinct certificate and key contents concatenate in order. -/
theorem identity_blob_is_cert_then_key_witness :
    get_identity (some "/home/u") (some "lukasz")
        (fun p => if p = cert_path "/home/u" "lukasz" then some [1, 2] else some [7, 8, 9])
      = IdentityResult.ok ([1, 2] ++ [7, 8, 9]) :=
  identity_blob_is_cert_then_key "/home/u" "lukasz"
    (fun p => if p = cert_path "/home/u" "lukasz" then some [1, 2] else some [7, 8, 9]) rfl rfl

/-- C9 counterexample: with `HOME` unset, `get_identity` does not return an
error value to its caller — the `expect` at main.rs line 166 aborts the
process with its message. -/
theorem unset_home_panics_not_returned_error :
    get_identity none (some "lukasz") (fun _ => some [])
        = IdentityResult.panicked "HOME environment variable not set" ∧
      (get_identity none (some "lukasz") (fun _ => some [])).isReturnedError
        = false :=
  ⟨rfl, rfl⟩

/-- C9 amended: if `HOME` is unset the process aborts via the `expect` panic
with the message "HOME environment variable not set"; if `HOME` is set but
`USER` is unset it aborts with "USER environment variable not set".  No error
value is returned to the caller in either case. -/
theorem unset_env_var_panics_with_message (user : Option String) (home : String)
    (readFile readFile2 : String → Option (List Nat)) :
    get_identity none user readFile
        = IdentityResult.panicked "HOME environment variable not set" ∧
      get_identity (some home) none readFile2
        = IdentityResult.panicked "USER environment variable not set" :=
  ⟨rfl, rfl⟩

set_option maxRecDepth 8000 in
/-- C10: paired line values that are not JSON strings are silently dropped by
the `as_str` filter at main.rs line 153: the printed lines are exactly the
`as_str`-filtered sorted line values, with no error — so fewer lines than
pairs can be printed. -/
theorem nonstring_line_values_silently_skipped
    (ns pod fromT toT : String) (lines : Nat) (text : String)
    {j : JValue} {v1 v2 : List JValue} {out : List JValue}
    (h1 : from_str text = some j)
    (h2 : lookupValues j = some (v1, v2))
    (h3 : zipSortStage v1 v2 = some out) :
    (get_logs ns pod fromT toT lines false text).2
      = GetLogsResult.success (out.filterMap JValue.as_str) := by
  show processResponse false text = _
  unfold processResponse
  rw [h1]
  simp only [h2, h3]
  rfl

set_option maxRecDepth 16000 in
/-- C10 witness: two pairs, one line a string and one the number 5 — only one
line is printed, strictly fewer than the two sorted pairs. -/
theorem nonstring_line_values_silently_skipped_witness :
    (get_logs "staging" "node-1" "now-24h" "now" 1000 false
        "\x7b\"results\":\x7b\"A\":\x7b\"frames\":[\x7b\"data\":\x7b\"values\":[[],[1,2],[\"a\",5]]\x7d\x7d]\x7d\x7d\x7d").2
      = GetLogsResult.success ["a"] :=
  nonstring_line_values_silently_skipped "staging" "node-1" "now-24h" "now"
    1000
    "\x7b\"results\":\x7b\"A\":\x7b\"frames\":[\x7b\"data\":\x7b\"values\":[[],[1,2],[\"a\",5]]\x7d\x7d]\x7d\x7d\x7d"
    rfl rfl rfl
